import Mathlib

set_option maxRecDepth 40000

/-!
Verification of the tech-docs RAG pipeline (TypeScript sources under
src/lib/ai.ts, src/lib/config.ts, src/lib/docs.ts and the message-bus
worker).  The TypeScript code is shallowly embedded: JavaScript strings
are modelled as Lean `String` / `List Char` (all inputs of interest are
ASCII, where `toLowerCase`, `trim` and code-unit comparison agree with
the Lean counterparts), similarity scores are modelled as rationals
(the values compared, 0.4 and friends, are exact in binary-independent
arithmetic; no claim depends on floating-point rounding), and every
external call (OpenAI embedding / chat completion, Pinecone query /
upsert, Redis publish, JSON.parse) is an oracle argument whose outcome
`Except`-style models the promise resolving or rejecting.
-/

/- ## JavaScript string primitives -/

/-- The apostrophe character, written via its code point. -/
def apoC : Char := Char.ofNat 39

/-- The apostrophe as a one-character string. -/
def apoS : String := ⟨[apoC]⟩

/-- `String.prototype.toLowerCase` restricted to the characters the
code manipulates (ASCII), where it agrees with `Char.toLower`. -/
def jsToLowerL (s : List Char) : List Char := s.map Char.toLower

/-- `String.prototype.trim` on a character list: whitespace is removed
from both ends. -/
def jsTrimL (s : List Char) : List Char :=
  ((s.dropWhile Char.isWhitespace).reverse.dropWhile Char.isWhitespace).reverse

/-- `String.prototype.trim` on strings. -/
def jsTrimS (s : String) : String := ⟨jsTrimL s.data⟩

/-- `String.prototype.toLowerCase` on strings. -/
def jsToLowerS (s : String) : String := ⟨jsToLowerL s.data⟩

/-- `String.prototype.includes nd` (substring test). -/
def containsSub (nd : List Char) : List Char → Bool
  | [] => nd.isPrefixOf []
  | c :: rest => nd.isPrefixOf (c :: rest) || containsSub nd rest

/-- `normalizedQuery.includes nd` with a string needle. -/
def inclS (q : List Char) (nd : String) : Bool := containsSub nd.data q

/-- `String.prototype.split c` for a single-character separator
(tail-recursive: `cur` is the current segment reversed, `acc` the
finished segments reversed). -/
def splitCharAux (sep : Char) : List Char → List Char → List (List Char) → List (List Char)
  | [], cur, acc => (cur.reverse :: acc).reverse
  | c :: rest, cur, acc =>
    if c = sep then splitCharAux sep rest [] (cur.reverse :: acc)
    else splitCharAux sep rest (c :: cur) acc

def splitChar (sep : Char) (s : List Char) : List (List Char) :=
  splitCharAux sep s [] []

/-- `Array.prototype.join sep` over character lists. -/
def joinWith (sep : List Char) : List (List Char) → List Char
  | [] => []
  | [x] => x
  | x :: xs => x ++ sep ++ joinWith sep xs

/-- `Array.from(new Set(...))`: deduplication keeping the first
occurrence, in insertion order.  Fuel-indexed (each step shortens the
list), so that the definition reduces by iota in the kernel. -/
def dedupKeepFirstAux [DecidableEq α] : Nat → List α → List α
  | 0, l => l
  | _, [] => []
  | Nat.succ fuel, x :: xs => x :: dedupKeepFirstAux fuel (xs.filter (fun y => y ≠ x))

def dedupKeepFirst [DecidableEq α] (l : List α) : List α :=
  dedupKeepFirstAux l.length l

/-- `String.prototype.substring 0 n`. -/
def strTake (n : Nat) (s : String) : String := ⟨s.data.take n⟩

/- ## JavaScript `Array.prototype.sort()` on strings

JS default sort compares strings by UTF-16 code units; on the
basic-multilingual-plane characters used here this is code-point
lexicographic order. -/

/-- Code-unit lexicographic `<=` on character lists. -/
def jsLe : List Char → List Char → Bool
  | [], _ => true
  | _ :: _, [] => false
  | a :: as, b :: bs =>
    if a.val < b.val then true
    else if b.val < a.val then false
    else jsLe as bs

/-- Code-unit lexicographic `<=` on strings. -/
def jsLeS (a b : String) : Bool := jsLe a.data b.data

/-- Ordered insertion used to model `Array.prototype.sort()`. -/
def insertLe (le : α → α → Bool) (a : α) : List α → List α
  | [] => [a]
  | b :: l => if le a b then a :: b :: l else b :: insertLe le a l

/-- Insertion sort modelling `Array.prototype.sort()` (the sort is
stable and total; only sortedness and the element multiset matter to
the claims). -/
def sortBy (le : α → α → Bool) : List α → List α
  | [] => []
  | a :: l => insertLe le a (sortBy le l)

/-- Adjacent-pairs sortedness test. -/
def isSorted (le : α → α → Bool) : List α → Bool
  | [] => true
  | [_] => true
  | a :: b :: l => le a b && isSorted le (b :: l)

theorem jsLe_total (a b : List Char) : jsLe a b = true ∨ jsLe b a = true := by
  induction a generalizing b with
  | nil => left; rfl
  | cons x xs ih =>
    cases b with
    | nil => right; rfl
    | cons y ys =>
      by_cases hxy : x.val < y.val
      · left; simp [jsLe, hxy]
      · by_cases hyx : y.val < x.val
        · right; simp [jsLe, hyx]
        · rcases ih ys with h | h
          · left; simp [jsLe, hxy, hyx, h]
          · right; simp [jsLe, hxy, hyx, h]

theorem jsLeS_total (a b : String) : jsLeS a b = true ∨ jsLeS b a = true :=
  jsLe_total a.data b.data

theorem isSorted_cons (le : α → α → Bool) (a b : α) (l : List α) :
    isSorted le (a :: b :: l) = (le a b && isSorted le (b :: l)) := rfl

theorem insertLe_shape (le : α → α → Bool) (a c : α) (l : List α) :
    insertLe le a (c :: l) = a :: c :: l ∨
      insertLe le a (c :: l) = c :: insertLe le a l := by
  by_cases h : le a c = true
  · left; simp [insertLe, h]
  · right; simp [insertLe, h]

theorem isSorted_insertLe (le : α → α → Bool)
    (htot : ∀ x y, le x y = true ∨ le y x = true) (a : α) :
    ∀ l, isSorted le l = true → isSorted le (insertLe le a l) = true := by
  intro l
  induction l with
  | nil => intro _; rfl
  | cons b l ih =>
    intro hs
    by_cases hab : le a b = true
    · simp [insertLe, hab, isSorted, hs]
    · have hba : le b a = true := by
        rcases htot a b with h | h
        · exact absurd h hab
        · exact h
      have hstep : insertLe le a (b :: l) = b :: insertLe le a l := by
        show (if le a b then a :: b :: l else b :: insertLe le a l) = _
        rw [if_neg hab]
      rw [hstep]
      cases l with
      | nil => simp [insertLe, isSorted, hba]
      | cons c l2 =>
        have hs2 : isSorted le (c :: l2) = true := by
          rw [isSorted_cons] at hs
          exact (Bool.and_eq_true _ _ |>.mp hs).2
        have hbc : le b c = true := by
          rw [isSorted_cons] at hs
          exact (Bool.and_eq_true _ _ |>.mp hs).1
        have hrec := ih hs2
        rcases insertLe_shape le a c l2 with hsh | hsh
        · rw [hsh, isSorted_cons, hba]
          rw [hsh] at hrec
          simpa using hrec
        · rw [hsh, isSorted_cons, hbc]
          rw [hsh] at hrec
          simpa using hrec

theorem isSorted_sortBy (le : α → α → Bool)
    (htot : ∀ x y, le x y = true ∨ le y x = true) :
    ∀ l, isSorted le (sortBy le l) = true := by
  intro l
  induction l with
  | nil => rfl
  | cons a l ih => exact isSorted_insertLe le htot a _ ih

theorem insertLe_ne_nil (le : α → α → Bool) (a : α) (l : List α) :
    insertLe le a l ≠ [] := by
  cases l with
  | nil => simp [insertLe]
  | cons b l =>
    by_cases h : le a b = true
    · simp [insertLe, h]
    · simp [insertLe, h]

theorem sortBy_ne_nil (le : α → α → Bool) (a : α) (l : List α) :
    sortBy le (a :: l) ≠ [] := insertLe_ne_nil le a _

/- ## src/lib/config.ts -/

/-- A domain configuration (`ExpertiseDomain` in src/types.ts).  The
`systemPrompt`, `officialDocUrls`, `icon` and `description` fields are
large fixed literals never inspected by the pipeline logic the claims
are about, and are elided from the model. -/
structure ExpertiseDomain where
  name : String
  nspace : String
  source : String
  isActive : Bool
deriving DecidableEq

/-- The single configured domain of `TECH_DOMAINS` in config.ts. -/
def inngestDomain : ExpertiseDomain :=
  { name := "Inngest Developer Success Engineer"
    nspace := "inngest-docs"
    source := "https://www.inngest.com/docs/"
    isActive := true }

/-- `TECH_DOMAINS[domain]` lookup, at the module's initial state (the
registry is mutable via `addDomain`, but every claim concerns the
statically configured state with the single `inngest` entry). -/
def TECH_DOMAINS (domain : String) : Option ExpertiseDomain :=
  if domain = "inngest" then some inngestDomain else none

/-- The retrieval-relevant part of `getPineconeConfig()` (`apiKey` and
`indexName` come from the environment and are never used by the logic
modelled here). -/
structure PineconeConfig where
  topK : Nat
  minScore : ℚ
deriving DecidableEq

/-- Rational score literals written in lowest terms via the `Rat`
constructor, so that the kernel can evaluate score comparisons on
concrete inputs (decimal literals normalize through `Nat.gcd`, which
the kernel cannot reduce).  `ratFourTenths = 0.4` and
`ratNineTenths = 0.9`, proved below. -/
def ratFourTenths : ℚ := ⟨2, 5, by decide, by norm_num⟩

def ratNineTenths : ℚ := ⟨9, 10, by decide, by norm_num⟩

theorem ratFourTenths_eq : ratFourTenths = 0.4 := by
  show Rat.mk' 2 5 _ _ = 0.4
  rw [Rat.mk'_eq_divInt, Rat.divInt_eq_div]
  norm_num

theorem ratNineTenths_eq : ratNineTenths = 0.9 := by
  show Rat.mk' 9 10 _ _ = 0.9
  rw [Rat.mk'_eq_divInt, Rat.divInt_eq_div]
  norm_num

def getPineconeConfig : PineconeConfig := { topK := 5, minScore := ratFourTenths }

/-- `DOC_CONFIG` in config.ts. -/
structure DocConfig where
  maxChunkSize : Nat
  chunkOverlap : Nat
  minChunkSize : Nat
  batchSize : Nat
  rateLimit : Nat
deriving DecidableEq

def DOC_CONFIG : DocConfig :=
  { maxChunkSize := 1000, chunkOverlap := 200, minChunkSize := 100
    batchSize := 100, rateLimit := 1000 }

/- ## src/lib/ai.ts : searchDocuments -/

/-- One Pinecone match, as consumed by `searchDocuments`: an optional
score and the metadata fields the pipeline reads (`content`, `source`,
`section`).  Other metadata keys are never inspected. -/
structure PineconeMatch where
  score : Option ℚ
  metaContent : Option String
  metaSource : Option String
  metaSection : Option String
deriving DecidableEq

/-- `VectorSearchResult` (src/types.ts) as built by `searchDocuments`;
the `metadata` bag is retained through its two fields read downstream. -/
structure VectorSearchResult where
  content : String
  source : String
  score : ℚ
  metaSource : Option String
  metaSection : Option String
deriving DecidableEq

/-- Counts of external calls made during one pipeline run. -/
structure CallLog where
  embedCalls : Nat
  vectorQueryCalls : Nat
  completionCalls : Nat
deriving DecidableEq

def noCalls : CallLog := ⟨0, 0, 0⟩

/-- `(match as { score?: number }).score || 0` (a missing score — and a
zero score — both yield 0). -/
def matchScore (m : PineconeMatch) : ℚ := m.score.getD 0

/-- The filter predicate of `searchDocuments`:
`score >= getPineconeConfig().minScore`. -/
def keptMatch (m : PineconeMatch) : Bool := getPineconeConfig.minScore ≤ matchScore m

/-- The map step of `searchDocuments`: `String(metadata?.content || '')`
and `String(metadata?.source || '')` (a missing — or empty — field gives
the empty string). -/
def toSearchResult (m : PineconeMatch) : VectorSearchResult :=
  { content := m.metaContent.getD ""
    source := m.metaSource.getD ""
    score := matchScore m
    metaSource := m.metaSource
    metaSection := m.metaSection }

/-- `searchDocuments(query, domain, topK)`.  `embedOutcome` is the
OpenAI embedding call resolving or rejecting (the vector's value is
opaque to everything modelled); `queryOutcome` is the Pinecone
namespace query resolving with its matches or rejecting.  Returns the
external-call log together with the resolved value or the error thrown
(each layer wraps error messages exactly as the source does). -/
def searchDocuments (domain : String) (_topK : Nat)
    (embedOutcome : Except String Unit)
    (queryOutcome : Except String (List PineconeMatch)) :
    CallLog × Except String (List VectorSearchResult) :=
  match TECH_DOMAINS domain with
  | none =>
    (noCalls, .error ("Document search failed: Domain " ++ apoS ++ domain ++ apoS
      ++ " is not active or doesn" ++ apoS ++ "t exist"))
  | some cfg =>
    if cfg.isActive = false then
      (noCalls, .error ("Document search failed: Domain " ++ apoS ++ domain ++ apoS
        ++ " is not active or doesn" ++ apoS ++ "t exist"))
    else
      match embedOutcome with
      | .error m => (⟨1, 0, 0⟩, .error ("Document search failed: Failed to generate embedding: " ++ m))
      | .ok _ =>
        match queryOutcome with
        | .error m => (⟨1, 1, 0⟩, .error ("Document search failed: " ++ m))
        | .ok ms => (⟨1, 1, 0⟩, .ok ((ms.filter keptMatch).map toSearchResult))

/- ## src/lib/ai.ts : URL extraction for source attribution -/

/-- The negated character class `[^\s\)\]\,\;\"\'\x60]` terminating a
URL match. -/
def isStopChar (c : Char) : Bool :=
  c.isWhitespace || c = ')' || c = ']' || c = ',' || c = ';' ||
    c = '"' || c = apoC || c = Char.ofNat 96

/-- The `urlPatterns` array: each regex is a literal prefix (with the
optional greedy `www.` written as an alternative list) followed by one
or more non-stop characters. -/
def urlPatterns : List (List (List Char)) :=
  [ ["https://www.inngest.com/docs/".data, "https://inngest.com/docs/".data],
    ["https://www.inngest.com/docs/guides/".data, "https://inngest.com/docs/guides/".data],
    ["https://www.inngest.com/docs/reference/".data, "https://inngest.com/docs/reference/".data],
    ["https://www.inngest.com/docs/learn/".data, "https://inngest.com/docs/learn/".data],
    ["https://www.inngest.com/blog/".data, "https://inngest.com/blog/".data],
    ["https://www.inngest.com/".data, "https://inngest.com/".data],
    ["/docs/".data],
    ["/docs/guides/".data],
    ["/docs/reference/".data] ]

/-- Try the pattern's literal alternatives at the current position;
on success return the whole greedy match and the remaining input. -/
def tryAlts : List (List Char) → List Char → Option (List Char × List Char)
  | [], _ => none
  | a :: rest, s =>
    if a.isPrefixOf s then
      let afterLit := s.drop a.length
      let run := afterLit.takeWhile (fun c => !isStopChar c)
      if run.isEmpty then tryAlts rest s
      else some (a ++ run, afterLit.drop run.length)
    else tryAlts rest s

/-- `content.match(pattern)` with the global flag: left-to-right,
non-overlapping matches.  Fuel-indexed; each step consumes at least one
character, so fuel `s.length` is always enough. -/
def scanAux (alts : List (List Char)) : Nat → List Char → List (List Char)
  | 0, _ => []
  | _, [] => []
  | Nat.succ fuel, s =>
    match tryAlts alts s with
    | some (m, rest) => m :: scanAux alts fuel rest
    | none => scanAux alts fuel s.tail

def scanMatches (alts : List (List Char)) (s : List Char) : List (List Char) :=
  scanAux alts s.length s

/-- `url.replace(/[.,;:!?\]\)]*$/, '')`. -/
def stripTrailingPunct (u : List Char) : List Char :=
  (u.reverse.dropWhile (fun c =>
    c = '.' || c = ',' || c = ';' || c = ':' || c = '!' || c = '?' || c = ']' || c = ')')).reverse

/-- `.replace(/#.*$/, '')`. -/
def cutFragment (u : List Char) : List Char := u.takeWhile (fun c => c ≠ '#')

/-- Relative-to-absolute conversion of `/docs/` links. -/
def absolutize (u : List Char) : List Char :=
  if "/docs/".data.isPrefixOf u then "https://www.inngest.com".data ++ u else u

/-- The per-match cleanup of the extraction loop; matches whose cleaned
URL is 20 characters or shorter are discarded. -/
def cleanKeep (m : List Char) : Option String :=
  let u := absolutize (cutFragment (stripTrailingPunct m))
  if 20 < u.length then some ⟨u⟩ else none

/-- All URLs one search result contributes to the `allUrls` set, in
insertion order: every pattern's cleaned matches over the content, then
the metadata source when it is a nonempty `http...` string. -/
def resultUrls (r : VectorSearchResult) : List String :=
  (urlPatterns.flatMap (fun alts => (scanMatches alts r.content.data).filterMap cleanKeep)) ++
    (if r.source ≠ "" ∧ "http".data.isPrefixOf r.source.data then [r.source] else [])

/-- `Array.from(allUrls)`: the deduplicated URL list over all results. -/
def collectUrls (rs : List VectorSearchResult) : List String :=
  dedupKeepFirst (rs.flatMap resultUrls)

/-- The section strings one result contributes to the `sections` set
(empty strings are falsy and skipped, exactly as in the source). -/
def resultSections (r : VectorSearchResult) : List String :=
  (match r.metaSection with
   | some s => if s ≠ "" then [s] else []
   | none => []) ++
  (match r.metaSource with
   | some s => if s ≠ "" then [s] else []
   | none => []) ++
  (if r.source ≠ "" then [r.source] else [])

def collectSections (rs : List VectorSearchResult) : List String :=
  dedupKeepFirst (rs.flatMap resultSections)

/-- The three-tier source list of `generateRAGResponse`'s GENERATE path:
sorted extracted URLs, else section labels, else excerpt placeholders
for up to three passages. -/
def buildSources (rs : List VectorSearchResult) : List String :=
  let sources := sortBy jsLeS (collectUrls rs)
  if sources.length = 0 then
    let fromSections := (collectSections rs).map (fun s =>
      if "http".data.isPrefixOf s.data then s else "Inngest Documentation: " ++ s)
    if fromSections.length = 0 then
      ((rs.take 3).enum).map (fun p =>
        "Inngest Docs Reference " ++ toString (p.1 + 1) ++ ": " ++ strTake 50 p.2.content ++ "...")
    else fromSections
  else sources

/- ## src/lib/ai.ts : generateRAGResponse -/

/-- The streaming chat completion: the `delta.content` of each chunk the
async iterator yields (none models an absent delta), plus an optional
rejection thrown by the iterator after those chunks. -/
structure StreamSpec where
  chunks : List (Option String)
  failsWith : Option String
deriving DecidableEq

/-- `generateRAGResponse(message, domain)`.  `embedOutcome` and
`queryOutcome` feed the inner `searchDocuments` call; `completionOutcome`
is the single `chat.completions.create` call made on whichever path is
taken (NO_CONTEXT when no passage clears the threshold, GENERATE
otherwise).  The prompt strings passed to the model are not observable
by any claim and are not recorded.  Returns the external-call log and
either the thrown error (wrapped exactly as the source wraps it) or the
resolved `{ completion, sources }` pair. -/
def generateRAGResponse (message domain : String)
    (embedOutcome : Except String Unit)
    (queryOutcome : Except String (List PineconeMatch))
    (completionOutcome : Except String StreamSpec) :
    CallLog × Except String (StreamSpec × List String) :=
  match TECH_DOMAINS domain with
  | none =>
    (noCalls, .error ("Failed to generate response: Domain " ++ apoS ++ domain ++ apoS
      ++ " is not active"))
  | some cfg =>
    if cfg.isActive = false then
      (noCalls, .error ("Failed to generate response: Domain " ++ apoS ++ domain ++ apoS
        ++ " is not active"))
    else
      match searchDocuments domain getPineconeConfig.topK embedOutcome queryOutcome with
      | (lg, .error m) => (lg, .error ("Failed to generate response: " ++ m))
      | (lg, .ok searchResults) =>
        match searchResults with
        | [] =>
          match completionOutcome with
          | .error m =>
            ({ lg with completionCalls := lg.completionCalls + 1 },
              .error ("Failed to generate response: " ++ m))
          | .ok spec =>
            ({ lg with completionCalls := lg.completionCalls + 1 },
              .ok (spec, ["inngest-general-help"]))
        | _ :: _ =>
          let sources := buildSources searchResults
          match completionOutcome with
          | .error m =>
            ({ lg with completionCalls := lg.completionCalls + 1 },
              .error ("Failed to generate response: " ++ m))
          | .ok spec =>
            ({ lg with completionCalls := lg.completionCalls + 1 },
              .ok (spec, sources))

/- ## src/lib/ai.ts : classifyQuery -/

inductive QueryType where
  | generic
  | specific
deriving DecidableEq

/-- `classifyQuery(message)`.  The oracle is the classifier model call:
`.error` is the call rejecting, `.ok content` is it resolving with
`response.choices[0]?.message?.content` (none when absent).  The
function is total — classification failure is absorbed and defaults to
`specific`, exactly as in the source. -/
def classifyQuery (outcome : Except Unit (Option String)) : QueryType :=
  match outcome with
  | .error _ => .specific
  | .ok content =>
    let classification :=
      match content with
      | none => "specific"
      | some s =>
        let t := jsTrimS (jsToLowerS s)
        if t = "" then "specific" else t
    if classification = "generic" then .generic else .specific

/- ## src/lib/ai.ts : storeDocuments -/

/-- `DocumentChunk` metadata (src/types.ts) as produced by
`parseMarkdownToChunks`; the `type` tag is always the literal
`documentation` on that path. -/
structure ChunkMetadata where
  source : String
  sect : String
  subsection : String
  ctype : String
  chunkIndex : Nat
  domain : String
deriving DecidableEq

structure DocumentChunk where
  content : String
  metadata : ChunkMetadata
deriving DecidableEq

/-- `chunks.slice(i, i + batchSize)` for `i = 0, 100, 200, ...`: the
batched view of the chunk list (batch size 100, fixed in the source). -/
def sliceBatchesAux : Nat → List DocumentChunk → List (List DocumentChunk)
  | 0, _ => []
  | _, [] => []
  | Nat.succ fuel, c :: rest => (c :: rest).take 100 :: sliceBatchesAux fuel ((c :: rest).drop 100)

def sliceBatches (l : List DocumentChunk) : List (List DocumentChunk) :=
  sliceBatchesAux l.length l

/-- The batched upsert loop of `storeDocuments`.  `upsertOutcome i` is
the Pinecone upsert call for batch `i` resolving or rejecting (a
rejected per-chunk embedding takes the identical path: the whole batch
throws before any of it is stored).  Returns, in order: the number of
batches for which the round trip was attempted, the value of
`totalStored` when the loop finished or threw, and the loop's result. -/
def storeBatchesGo (upsertOutcome : Nat → Except String Unit)
    (i total : Nat) : List (List DocumentChunk) → Nat × Nat × Except String Nat
  | [] => (0, total, .ok total)
  | b :: rest =>
    match upsertOutcome i with
    | .error m => (1, total, .error m)
    | .ok _ =>
      let out := storeBatchesGo upsertOutcome (i + 1) (total + b.length) rest
      (out.1 + 1, out.2)

deriving instance DecidableEq for Except

/-- The surfaced result of `storeDocuments`. -/
structure StoreOutcome where
  upsertCallsAttempted : Nat
  totalStored : Nat
  result : Except String Nat
deriving DecidableEq

/-- `storeDocuments(chunks, domain)`.  The catch block wraps whatever
was thrown as `Failed to store documents: <message>`; note that the
wrapped message is the underlying error's text only. -/
def storeDocuments (chunks : List DocumentChunk) (domain : String)
    (upsertOutcome : Nat → Except String Unit) : StoreOutcome :=
  match TECH_DOMAINS domain with
  | none =>
    ⟨0, 0, .error ("Failed to store documents: Domain " ++ apoS ++ domain ++ apoS
      ++ " doesn" ++ apoS ++ "t exist")⟩
  | some _ =>
    match storeBatchesGo upsertOutcome 0 0 (sliceBatches chunks) with
    | (a, t, .ok n) => ⟨a, t, .ok n⟩
    | (a, t, .error m) => ⟨a, t, .error ("Failed to store documents: " ++ m)⟩

/- ## src/lib/docs.ts : parseMarkdownToChunks -/

/-- `content.split(/^## /m)` (and `/^### /m`): split at every
occurrence of the marker at the start of a line, consuming the marker.
`atStart` tracks whether the scan position is at a line start.
Fuel-indexed (each step consumes at least one character) and
tail-recursive: `cur` is the current segment reversed, `acc` the
finished segments reversed. -/
def splitMarkAux (marker : List Char) :
    Nat → List Char → Bool → List Char → List (List Char) → List (List Char)
  | 0, s, _, cur, acc => ((cur.reverse ++ s) :: acc).reverse
  | Nat.succ _, [], _, cur, acc => (cur.reverse :: acc).reverse
  | Nat.succ fuel, c :: rest, atStart, cur, acc =>
    if atStart ∧ marker.isPrefixOf (c :: rest) then
      splitMarkAux marker fuel ((c :: rest).drop marker.length) false [] (cur.reverse :: acc)
    else
      splitMarkAux marker fuel rest (c = '\n') (c :: cur) acc

def splitMark (marker : String) (s : List Char) : List (List Char) :=
  splitMarkAux marker.data s.length s true [] []

/-- Index of the first newline (list length when there is none). -/
def idxOfNl : List Char → Nat
  | [] => 0
  | c :: rest => if c = '\n' then 0 else idxOfNl rest + 1

/-- `content.split(/\n\s*\n/)`: the greedy separator is a maximal
whitespace run that begins with a newline, taken up to its last
newline.  Fuel-indexed and tail-recursive like `splitMarkAux`. -/
def splitParasAux : Nat → List Char → List Char → List (List Char) → List (List Char)
  | 0, s, cur, acc => ((cur.reverse ++ s) :: acc).reverse
  | Nat.succ _, [], cur, acc => (cur.reverse :: acc).reverse
  | Nat.succ fuel, c :: rest, cur, acc =>
    if c = '\n' then
      let run := (c :: rest).takeWhile Char.isWhitespace
      let lastNl := run.length - 1 - idxOfNl run.reverse
      if 1 ≤ lastNl then
        splitParasAux fuel ((c :: rest).drop (lastNl + 1)) [] (cur.reverse :: acc)
      else
        splitParasAux fuel rest (c :: cur) acc
    else
      splitParasAux fuel rest (c :: cur) acc

def splitParas (s : List Char) : List (List Char) := splitParasAux s.length s [] []

/-- `createOptimalChunks`' paragraph-accumulation loop (the `else`
branch for content longer than `maxSize`).  `mk cur idx` builds the
chunk saved for accumulated text `cur` with index `idx`.  Returns the
chunks pushed, walking the paragraphs in order. -/
def accumulateParas (maxSize : Nat) (mk : List Char → Nat → DocumentChunk) :
    List (List Char) → List Char → Nat → List DocumentChunk
  | [], cur, idx => if cur = [] then [] else [mk cur idx]
  | p :: ps, cur, idx =>
    let t := jsTrimL p
    if t = [] then accumulateParas maxSize mk ps cur idx
    else if maxSize < cur.length + t.length then
      if cur = [] then accumulateParas maxSize mk ps t idx
      else mk cur idx :: accumulateParas maxSize mk ps t (idx + 1)
    else
      accumulateParas maxSize mk ps (if cur = [] then t else cur ++ "\n\n".data ++ t) idx

/-- `createOptimalChunks(content, sectionTitle, subTitle, domain,
source)`.  Note from the source: the size cap is the literal 1200
(commented `maxChunkSize` but distinct from `DOC_CONFIG.maxChunkSize`),
the cap is checked against the body alone, and the `# <title>` header
is prepended after the check. -/
def createOptimalChunks (content sectionTitle subTitle : List Char)
    (domain source : String) : List DocumentChunk :=
  let maxSize := 1200
  let title := if subTitle ≠ [] then sectionTitle ++ " - ".data ++ subTitle else sectionTitle
  let mk : List Char → Nat → DocumentChunk := fun body idx =>
    { content := ⟨"# ".data ++ title ++ "\n\n".data ++ body⟩
      metadata :=
        { source := source
          sect := ⟨sectionTitle⟩
          subsection := ⟨subTitle⟩
          ctype := "documentation"
          chunkIndex := idx
          domain := domain } }
  if content.length ≤ maxSize then
    [mk content 0]
  else
    accumulateParas maxSize mk (splitParas content) [] 0

/-- The `chunks` array of `parseMarkdownToChunks` before the final
minimum-size filter: split into `## ` sections (index 0 is the
preamble, titled `Introduction`, whose first line is dropped by
`lines.slice(1)` exactly as in the source), then into `### `
subsections, then size-managed chunks. -/
def rawMarkdownChunks (content : String) (domain source : String) : List DocumentChunk :=
  let sections := splitMark "## " content.data
  sections.enum.flatMap (fun sec =>
    if jsTrimL sec.2 = [] then []
    else
      let lines := splitChar '\n' sec.2
      let sectionTitle :=
        if sec.1 = 0 then "Introduction".data
        else
          let t := jsTrimL (lines.headD [])
          if t = [] then ("Section " ++ toString sec.1).data else t
      let sectionContent := jsTrimL (joinWith "\n".data lines.tail)
      let subsections := splitMark "### " sectionContent
      subsections.enum.flatMap (fun sub =>
        if jsTrimL sub.2 = [] then []
        else
          let subLines := splitChar '\n' sub.2
          let subTitle := if sub.1 = 0 then [] else jsTrimL (subLines.headD [])
          let subContent :=
            jsTrimL (joinWith "\n".data (if sub.1 = 0 then subLines else subLines.tail))
          createOptimalChunks subContent sectionTitle subTitle domain source))

/-- `parseMarkdownToChunks(content, domain, source)`: the chunks above,
filtered to `content.length >= 100` (the literal `minChunkSize`). -/
def parseMarkdownToChunks (content : String) (domain : String)
    (source : String) : List DocumentChunk :=
  (rawMarkdownChunks content domain source).filter (fun c => 100 ≤ c.content.length)

/- ## The message-bus worker (RAGWorker) -/

/-- `RAGQueryEvent`: the payload parsed from the `rag:query` channel. -/
structure RAGQueryEvent where
  id : String
  userId : String
  channelId : String
  message : String
  domain : String
  timestamp : Nat
deriving DecidableEq

/-- `RAGResponseEvent`: the payload published on `rag:response`. -/
structure RAGResponseEvent where
  id : String
  userId : String
  channelId : String
  response : String
  sources : List String
  success : Bool
  timestamp : Nat
deriving DecidableEq

/-- The canned answer bodies of `getGenericResponse` and
`checkForCachedResponse` are large fixed markdown literals (multi-line
strings with code samples).  No claim inspects their text — only the
branch conditions and the `sources` arrays, which are translated
exactly — so each body is represented by a short stand-in constant
naming its branch. -/
def cannedText (branch : String) : String := "canned-response: " ++ branch

/-- `getGenericResponse(query)` of the worker: keyword dispatch over
the lower-cased query; the final branch is the fixed greeting with the
docs-root and community sources. -/
def getGenericResponse (query : String) : String × List String :=
  let nq := jsToLowerL query.data
  if inclS nq "function" &&
      (inclS nq "trigger" || inclS nq "not work" || inclS nq "show up" ||
       inclS nq "dev server" || inclS nq ("isn" ++ apoS ++ "t") ||
       inclS nq ("doesn" ++ apoS ++ "t")) then
    (cannedText "function-not-triggering",
      ["https://www.inngest.com/docs/functions/create",
       "https://www.inngest.com/docs/local-development"])
  else if (inclS nq "error" && (inclS nq "handling" || inclS nq "retry" || inclS nq "retries")) ||
      (inclS nq "implement" && inclS nq "retry") ||
      (inclS nq "retry" || inclS nq "retries") then
    (cannedText "error-handling-retries",
      ["https://www.inngest.com/docs/functions/error-handling",
       "https://www.inngest.com/docs/functions/retries"])
  else if (inclS nq "step" && (inclS nq "timeout" || inclS nq "break" || inclS nq "split")) ||
      (inclS nq "break" && inclS nq "function") ||
      (inclS nq "avoid" && (inclS nq "timeout" || inclS nq "times out" || inclS nq "timed out")) ||
      (inclS nq "timeout" || inclS nq "times out" || inclS nq "timed out") then
    (cannedText "steps-timeouts",
      ["https://www.inngest.com/docs/functions/steps"])
  else if (inclS nq "rate" && (inclS nq "limit" || inclS nq "limiting" || inclS nq "throttle")) ||
      inclS nq "concurrency" then
    (cannedText "rate-limiting",
      ["https://www.inngest.com/docs/functions/concurrency"])
  else if (inclS nq "local" && (inclS nq "development" || inclS nq "dev" || inclS nq "setup")) ||
      (inclS nq "set up" && inclS nq "inngest") ||
      inclS nq "inngest-cli" then
    (cannedText "local-development",
      ["https://www.inngest.com/docs/local-development",
       "https://www.inngest.com/docs/quick-start"])
  else if (inclS nq "deploy" && (inclS nq "vercel" || inclS nq "production" || inclS nq "deployment")) ||
      (inclS nq "vercel" && inclS nq "inngest") then
    (cannedText "vercel-deployment",
      ["https://www.inngest.com/docs/deploy/vercel",
       "https://www.inngest.com/docs/apps/cloud"])
  else
    (cannedText "default-greeting",
      ["https://www.inngest.com/docs", "https://discord.gg/inngest"])

/-- `checkForCachedResponse(query)`: the cached common-technical-question
matcher, `null` when no block matches. -/
def checkForCachedResponse (query : String) : Option (String × List String) :=
  let nq := jsToLowerL query.data
  if (inclS nq "function" &&
      (inclS nq "not" || inclS nq "wont" || inclS nq ("won" ++ apoS ++ "t") ||
       inclS nq "trigger")) ||
      (inclS nq "missing" && inclS nq "serve") ||
      inclS nq "endpoint not found" then
    some (cannedText "cached-function-not-triggering",
      ["https://www.inngest.com/docs/reference/functions/create",
       "https://www.inngest.com/docs/quick-start"])
  else if (inclS nq "error" && (inclS nq "handling" || inclS nq "retry" || inclS nq "retries")) ||
      inclS nq "nonretriableerror" ||
      (inclS nq "automatic" && inclS nq "retry") then
    some (cannedText "cached-error-handling-retries",
      ["https://www.inngest.com/docs/learn/inngest-functions",
       "https://www.inngest.com/docs/reference/functions/create"])
  else if (inclS nq "step" && (inclS nq "timeout" || inclS nq "time" || inclS nq "times out")) ||
      (inclS nq "function" && inclS nq "timeout") then
    some (cannedText "cached-steps-timeouts",
      ["https://www.inngest.com/docs/learn/inngest-functions"])
  else if (inclS nq "rate" && (inclS nq "limit" || inclS nq "limiting" || inclS nq "throttle")) ||
      inclS nq "concurrency" then
    some (cannedText "cached-rate-limiting",
      ["https://www.inngest.com/docs/reference/functions/create"])
  else if (inclS nq "local" && (inclS nq "development" || inclS nq "dev" || inclS nq "setup")) ||
      (inclS nq "set up" && inclS nq "inngest") ||
      inclS nq "inngest-cli" then
    some (cannedText "cached-local-development",
      ["https://www.inngest.com/docs/local-development",
       "https://www.inngest.com/docs/quick-start"])
  else if (inclS nq "deploy" && (inclS nq "vercel" || inclS nq "production" || inclS nq "deployment")) ||
      (inclS nq "vercel" && inclS nq "inngest") then
    some (cannedText "cached-vercel-deployment",
      ["https://www.inngest.com/docs/deploy/vercel"])
  else
    none

/-- The fixed failure text of the worker's catch-all error response. -/
def workerErrorText : String :=
  "I encountered an error processing your request. Please try again."

/-- Response-event constructor shared by the worker's publish sites. -/
def mkResponse (ev : RAGQueryEvent) (response : String) (sources : List String)
    (success : Bool) (now : Nat) : RAGResponseEvent :=
  ⟨ev.id, ev.userId, ev.channelId, response, sources, success, now⟩

/-- `fullResponse`: the drained stream,
`chunk.choices[0]?.delta?.content || ''` concatenated. -/
def drainStream (spec : StreamSpec) : String :=
  String.join (spec.chunks.map (fun c => c.getD ""))

/-- `processRAGQuery(event)`.  `classifyOutcome` is the classifier model
call fed to `classifyQuery`; the remaining oracles feed
`generateRAGResponse` when the expensive path is reached.  `now` stands
for `Date.now()` at publish time.  Returns the events published on
`rag:response` (in order) and the external-call log of the retrieval
pipeline.  The Redis publish itself is modelled as accepting the event
(bus failures are outside the claims' failure modes). -/
def processRAGQuery (ev : RAGQueryEvent)
    (classifyOutcome : Except Unit (Option String))
    (embedOutcome : Except String Unit)
    (queryOutcome : Except String (List PineconeMatch))
    (completionOutcome : Except String StreamSpec)
    (now : Nat) : List RAGResponseEvent × CallLog :=
  match classifyQuery classifyOutcome with
  | .generic =>
    let r := getGenericResponse ev.message
    ([mkResponse ev r.1 r.2 true now], noCalls)
  | .specific =>
    match checkForCachedResponse ev.message with
    | some r => ([mkResponse ev r.1 r.2 true now], noCalls)
    | none =>
      let domain := if ev.domain = "" then "inngest" else ev.domain
      match generateRAGResponse ev.message domain embedOutcome queryOutcome completionOutcome with
      | (lg, .error _) => ([mkResponse ev workerErrorText [] false now], lg)
      | (lg, .ok (spec, sources)) =>
        match spec.failsWith with
        | some _ => ([mkResponse ev workerErrorText [] false now], lg)
        | none => ([mkResponse ev (drainStream spec) sources true now], lg)

/-- `handleMessage(channel, message)`.  `parsed` is the outcome of
`JSON.parse(message)`: `none` models the parse throwing (the catch only
logs — nothing is published).  Messages on other channels are ignored. -/
def handleMessage (channel : String) (parsed : Option RAGQueryEvent)
    (classifyOutcome : Except Unit (Option String))
    (embedOutcome : Except String Unit)
    (queryOutcome : Except String (List PineconeMatch))
    (completionOutcome : Except String StreamSpec)
    (now : Nat) : List RAGResponseEvent × CallLog :=
  if channel ≠ "rag:query" then ([], noCalls)
  else
    match parsed with
    | none => ([], noCalls)
    | some ev => processRAGQuery ev classifyOutcome embedOutcome queryOutcome completionOutcome now

/- ## Claims -/

/-- Claim C10: a payload on `rag:query` that is not valid JSON (the
parse oracle is `none`) causes nothing to be published on
`rag:response` — the worker's `handleMessage` catch only logs, so the
client is left to its own timeout. -/
theorem C10_invalid_json_publishes_nothing
    (classifyO : Except Unit (Option String)) (embedO : Except String Unit)
    (queryO : Except String (List PineconeMatch)) (completionO : Except String StreamSpec)
    (now : Nat) :
    handleMessage "rag:query" none classifyO embedO queryO completionO now = ([], noCalls) := by
  rfl

/-- Claim C5: `classifyQuery` returns `generic` exactly when the model
call resolved with content whose lower-cased, trimmed form is the
literal `generic`; every other content, a missing content, and a
rejected call all yield `specific`, and the function is total (no error
escapes to the caller). -/
theorem C5_classifyQuery_generic_iff (o : Except Unit (Option String)) :
    classifyQuery o = QueryType.generic ↔
      ∃ s, o = .ok (some s) ∧ jsTrimS (jsToLowerS s) = "generic" := by
  constructor
  · intro h
    match o with
    | .error u => simp [classifyQuery] at h
    | .ok none => simp [classifyQuery] at h
    | .ok (some s) =>
      refine ⟨s, rfl, ?_⟩
      by_cases ht : jsTrimS (jsToLowerS s) = ""
      · simp [classifyQuery, ht] at h
      · by_cases hg : jsTrimS (jsToLowerS s) = "generic"
        · exact hg
        · simp [classifyQuery, ht, hg] at h
  · rintro ⟨s, rfl, hs⟩
    have hne : jsTrimS (jsToLowerS s) ≠ "" := by
      rw [hs]; decide
    simp [classifyQuery, hne, hs]

/-- Whether the expensive pipeline of the worker's specific path fails:
either `generateRAGResponse` rejects, or the stream it returned throws
while being drained. -/
def ragPipelineFails (message domain : String) (embedO : Except String Unit)
    (queryO : Except String (List PineconeMatch))
    (completionO : Except String StreamSpec) : Bool :=
  match (generateRAGResponse message domain embedO queryO completionO).2 with
  | .error _ => true
  | .ok (spec, _) => spec.failsWith.isSome

/-- Claim C1: for every parsed Query Event, `processRAGQuery` publishes
exactly one Response Event; every published failure event carries the
fixed (non-empty) failure text; and whenever the specific-path pipeline
throws (classification cannot throw — it is absorbed inside
`classifyQuery` — so the failure modes are retrieval, generation and
the completion stream), the single published event has `success =
false`. -/
theorem C1_exactly_one_response (ev : RAGQueryEvent)
    (classifyO : Except Unit (Option String)) (embedO : Except String Unit)
    (queryO : Except String (List PineconeMatch)) (completionO : Except String StreamSpec)
    (now : Nat) :
    (processRAGQuery ev classifyO embedO queryO completionO now).1.length = 1 ∧
    workerErrorText ≠ "" ∧
    (∀ e ∈ (processRAGQuery ev classifyO embedO queryO completionO now).1,
      e.success = false → e.response = workerErrorText) ∧
    (classifyQuery classifyO = .specific →
      checkForCachedResponse ev.message = none →
      ragPipelineFails ev.message (if ev.domain = "" then "inngest" else ev.domain)
        embedO queryO completionO = true →
      ∀ e ∈ (processRAGQuery ev classifyO embedO queryO completionO now).1,
        e.success = false) := by
  cases hq : classifyQuery classifyO with
  | generic =>
    refine ⟨by simp [processRAGQuery, hq], by decide, ?_, ?_⟩
    · intro e he hf
      simp [processRAGQuery, hq] at he
      rw [he] at hf
      simp [mkResponse] at hf
    · intro hspec
      exact absurd hspec (by decide)
  | specific =>
    cases hc : checkForCachedResponse ev.message with
    | some r =>
      refine ⟨by simp [processRAGQuery, hq, hc], by decide, ?_, ?_⟩
      · intro e he hf
        simp [processRAGQuery, hq, hc] at he
        rw [he] at hf
        simp [mkResponse] at hf
      · intro _ hcache
        exact absurd hcache (by simp)
    | none =>
      rcases hgen : generateRAGResponse ev.message
          (if ev.domain = "" then "inngest" else ev.domain) embedO queryO completionO
        with ⟨lg, res⟩
      cases res with
      | error m =>
        refine ⟨by simp [processRAGQuery, hq, hc, hgen], by decide, ?_, ?_⟩
        · intro e he _
          simp [processRAGQuery, hq, hc, hgen] at he
          rw [he]; rfl
        · intro _ _ _ e he
          simp [processRAGQuery, hq, hc, hgen] at he
          rw [he]; rfl
      | ok p =>
        rcases p with ⟨spec, srcs⟩
        cases hf : spec.failsWith with
        | some msg =>
          refine ⟨by simp [processRAGQuery, hq, hc, hgen, hf], by decide, ?_, ?_⟩
          · intro e he _
            simp [processRAGQuery, hq, hc, hgen, hf] at he
            rw [he]; rfl
          · intro _ _ _ e he
            simp [processRAGQuery, hq, hc, hgen, hf] at he
            rw [he]; rfl
        | none =>
          refine ⟨by simp [processRAGQuery, hq, hc, hgen, hf], by decide, ?_, ?_⟩
          · intro e he hfa
            simp [processRAGQuery, hq, hc, hgen, hf] at he
            rw [he] at hfa
            simp [mkResponse] at hfa
          · intro _ _ hfail
            exfalso
            rw [ragPipelineFails, hgen] at hfail
            simp [hf] at hfail

/-- Concrete instance of C1: classifier says `specific`, no cached
match, and the completion call rejects — exactly one event is
published, and it is a failure event with the fixed non-empty text. -/
theorem C1_exactly_one_response_witness :
    (processRAGQuery ⟨"id1", "u1", "ch1", "zzz", "inngest", 0⟩
        (.ok (some "specific")) (.ok ()) (.ok []) (.error "boom") 0).1.length = 1 ∧
    (∀ e ∈ (processRAGQuery ⟨"id1", "u1", "ch1", "zzz", "inngest", 0⟩
        (.ok (some "specific")) (.ok ()) (.ok []) (.error "boom") 0).1,
      e.success = false) := by
  have h := C1_exactly_one_response ⟨"id1", "u1", "ch1", "zzz", "inngest", 0⟩
    (.ok (some "specific")) (.ok ()) (.ok []) (.error "boom") 0
  exact ⟨h.1, h.2.2.2 (by decide) (by decide) (by decide)⟩

/-- Claim C2 (counterexample): the query `retry`, labelled `generic` by
the classifier, is answered through `getGenericResponse`'s
error-handling keyword branch — the published source list is that
branch's list, not the fixed generic-help set (docs-root URL and
community URL). -/
theorem C2_counterexample :
    classifyQuery (.ok (some "generic")) = QueryType.generic ∧
    (processRAGQuery ⟨"id-r", "u", "ch", "retry", "inngest", 0⟩
        (.ok (some "generic")) (.ok ()) (.ok []) (.ok ⟨[], none⟩) 0).1.map
          RAGResponseEvent.sources =
      [["https://www.inngest.com/docs/functions/error-handling",
        "https://www.inngest.com/docs/functions/retries"]] ∧
    ["https://www.inngest.com/docs/functions/error-handling",
     "https://www.inngest.com/docs/functions/retries"] ≠
      ["https://www.inngest.com/docs", "https://discord.gg/inngest"] := by
  refine ⟨by decide, by decide, by decide⟩

/-- Claim C2 (amended): for every query the classifier labels
`generic`, the worker performs no embedding call and no vector-search
call and publishes exactly one successful Response Event whose source
list is the one selected by `getGenericResponse`'s keyword matching on
the message; that list is the fixed generic-help set (docs-root URL and
community URL) when no keyword branch matches — in particular for the
message `hi`. -/
theorem C2_generic_sources (ev : RAGQueryEvent)
    (classifyO : Except Unit (Option String)) (embedO : Except String Unit)
    (queryO : Except String (List PineconeMatch)) (completionO : Except String StreamSpec)
    (now : Nat)
    (hq : classifyQuery classifyO = QueryType.generic) :
    (processRAGQuery ev classifyO embedO queryO completionO now).2 = noCalls ∧
    (processRAGQuery ev classifyO embedO queryO completionO now).1 =
      [mkResponse ev (getGenericResponse ev.message).1 (getGenericResponse ev.message).2
        true now] ∧
    (getGenericResponse "hi").2 =
      ["https://www.inngest.com/docs", "https://discord.gg/inngest"] := by
  refine ⟨by simp [processRAGQuery, hq], by simp [processRAGQuery, hq], by decide⟩

/-- Concrete instance of C2 (amended), scenario A: message `hi`
labelled `generic` — no embedding or vector-search call, one successful
event, sources equal to the fixed generic-help set. -/
theorem C2_generic_sources_witness :
    (processRAGQuery ⟨"id-h", "u", "ch", "hi", "inngest", 0⟩
        (.ok (some "generic")) (.ok ()) (.ok []) (.ok ⟨[], none⟩) 0).2 = noCalls ∧
    (processRAGQuery ⟨"id-h", "u", "ch", "hi", "inngest", 0⟩
        (.ok (some "generic")) (.ok ()) (.ok []) (.ok ⟨[], none⟩) 0).1 =
      [mkResponse ⟨"id-h", "u", "ch", "hi", "inngest", 0⟩
        (getGenericResponse "hi").1 (getGenericResponse "hi").2 true 0] ∧
    (getGenericResponse "hi").2 =
      ["https://www.inngest.com/docs", "https://discord.gg/inngest"] :=
  C2_generic_sources ⟨"id-h", "u", "ch", "hi", "inngest", 0⟩
    (.ok (some "generic")) (.ok ()) (.ok []) (.ok ⟨[], none⟩) 0 (by decide)

/-- Claim C3: when no passage clears the score threshold and the
completion call resolves, `generateRAGResponse` does not throw: it
makes exactly one completion call and resolves with the single
generic-help placeholder source, and the worker response built from it
has `success = true`. -/
theorem C3_no_context_path (ev : RAGQueryEvent) (ms : List PineconeMatch)
    (spec : StreamSpec) (classifyO : Except Unit (Option String)) (now : Nat)
    (hms : ms.filter keptMatch = [])
    (hdom : ev.domain = "inngest")
    (hcl : classifyQuery classifyO = QueryType.specific)
    (hcache : checkForCachedResponse ev.message = none)
    (hstream : spec.failsWith = none) :
    (generateRAGResponse ev.message "inngest" (.ok ()) (.ok ms) (.ok spec)).2 =
      .ok (spec, ["inngest-general-help"]) ∧
    (generateRAGResponse ev.message "inngest" (.ok ()) (.ok ms) (.ok spec)).1.completionCalls = 1 ∧
    (processRAGQuery ev classifyO (.ok ()) (.ok ms) (.ok spec) now).1.map
      (fun e => (e.success, e.sources)) = [(true, ["inngest-general-help"])] := by
  have hsearch : searchDocuments "inngest" getPineconeConfig.topK (.ok ()) (.ok ms) =
      (⟨1, 1, 0⟩, .ok []) := by
    simp [searchDocuments, TECH_DOMAINS, inngestDomain, hms]
  have hfull : generateRAGResponse ev.message "inngest" (.ok ()) (.ok ms) (.ok spec) =
      (⟨1, 1, 1⟩, .ok (spec, ["inngest-general-help"])) := by
    simp [generateRAGResponse, TECH_DOMAINS, inngestDomain, hsearch]
  refine ⟨by rw [hfull], by rw [hfull], ?_⟩
  simp [processRAGQuery, hcl, hcache, hdom, hfull, hstream, mkResponse]

/-- Concrete instance of C3, scenario C: a specific, non-cached query
with no matching passage — one completion call, placeholder source,
successful bus response. -/
theorem C3_no_context_path_witness :
    (generateRAGResponse "Explain the exact retry backoff formula for obscure-feature-X"
        "inngest" (.ok ()) (.ok []) (.ok ⟨[some "Here is some general guidance."], none⟩)).2 =
      .ok (⟨[some "Here is some general guidance."], none⟩, ["inngest-general-help"]) ∧
    (generateRAGResponse "Explain the exact retry backoff formula for obscure-feature-X"
        "inngest" (.ok ()) (.ok [])
        (.ok ⟨[some "Here is some general guidance."], none⟩)).1.completionCalls = 1 ∧
    (processRAGQuery
        ⟨"id-c", "u", "ch", "Explain the exact retry backoff formula for obscure-feature-X",
          "inngest", 0⟩
        (.ok (some "specific")) (.ok ()) (.ok [])
        (.ok ⟨[some "Here is some general guidance."], none⟩) 0).1.map
      (fun e => (e.success, e.sources)) = [(true, ["inngest-general-help"])] :=
  C3_no_context_path
    ⟨"id-c", "u", "ch", "Explain the exact retry backoff formula for obscure-feature-X",
      "inngest", 0⟩
    [] ⟨[some "Here is some general guidance."], none⟩ (.ok (some "specific")) 0
    rfl rfl (by decide) (by decide) rfl

/-- Claim C4: for any active domain, when the embedding and index calls
resolve and the index honours its top-K contract (at most `topK`
matches), every returned search result has `score >= minScore` (0.4 by
configuration), at most `topK` results are returned (5 by
configuration), and an all-below-threshold match list resolves to the
empty list rather than an error. -/
theorem C4_search_threshold_topk (domain : String) (cfg : ExpertiseDomain) (topK : Nat)
    (ms : List PineconeMatch)
    (hdom : TECH_DOMAINS domain = some cfg) (hact : cfg.isActive = true)
    (hlen : ms.length ≤ topK) :
    getPineconeConfig.topK = 5 ∧ getPineconeConfig.minScore = 0.4 ∧
    ∃ rs, (searchDocuments domain topK (.ok ()) (.ok ms)).2 = .ok rs ∧
      (∀ r ∈ rs, getPineconeConfig.minScore ≤ r.score) ∧
      rs.length ≤ topK ∧
      ((∀ m ∈ ms, matchScore m < getPineconeConfig.minScore) → rs = []) := by
  refine ⟨rfl, ratFourTenths_eq, (ms.filter keptMatch).map toSearchResult, ?_, ?_, ?_, ?_⟩
  · simp [searchDocuments, hdom, hact]
  · intro r hr
    rcases List.mem_map.mp hr with ⟨m, hm, rfl⟩
    have hk : keptMatch m = true := List.of_mem_filter hm
    have : getPineconeConfig.minScore ≤ matchScore m := by
      simpa [keptMatch] using hk
    simpa [toSearchResult] using this
  · calc ((ms.filter keptMatch).map toSearchResult).length
        = (ms.filter keptMatch).length := List.length_map _ _
      _ ≤ ms.length := List.length_filter_le _ _
      _ ≤ topK := hlen
  · intro hall
    have : ms.filter keptMatch = [] := by
      apply List.filter_eq_nil.mpr
      intro m hm
      simp [keptMatch]
      exact hall m hm
    rw [this]
    rfl

/-- Concrete instance of C4: two matches (scores 0.9 and 0.4) in the
active `inngest` domain — every surviving score clears the 0.4
threshold and at most five results come back. -/
theorem C4_search_threshold_topk_witness :
    getPineconeConfig.topK = 5 ∧ getPineconeConfig.minScore = 0.4 ∧
    ∃ rs, (searchDocuments "inngest" 5 (.ok ())
        (.ok [⟨some ratNineTenths, some "c1", some "https://x", none⟩,
              ⟨some ratFourTenths, some "c2", none, none⟩])).2 = .ok rs ∧
      (∀ r ∈ rs, getPineconeConfig.minScore ≤ r.score) ∧
      rs.length ≤ 5 ∧
      ((∀ m ∈ [(⟨some ratNineTenths, some "c1", some "https://x", none⟩ : PineconeMatch),
               ⟨some ratFourTenths, some "c2", none, none⟩],
          matchScore m < getPineconeConfig.minScore) → rs = []) :=
  C4_search_threshold_topk "inngest" inngestDomain 5
    [⟨some ratNineTenths, some "c1", some "https://x", none⟩,
     ⟨some ratFourTenths, some "c2", none, none⟩]
    rfl rfl (by decide)

/-- The GENERATE-path source list is never empty: tier 3 always emits
one placeholder per passage (up to three), and the path is only taken
with at least one passage. -/
theorem buildSources_ne_nil (r : VectorSearchResult) (rs : List VectorSearchResult) :
    buildSources (r :: rs) ≠ [] := by
  unfold buildSources
  cases hu : collectUrls (r :: rs) with
  | nil =>
    cases hsec : collectSections (r :: rs) with
    | nil =>
      simp [hu, hsec, sortBy]
    | cons a l =>
      simp [hu, hsec, sortBy]
  | cons u us =>
    have hne : sortBy jsLeS (u :: us) ≠ [] := sortBy_ne_nil jsLeS u us
    have hlen : (sortBy jsLeS (u :: us)).length ≠ 0 := by
      intro h0
      exact hne (List.length_eq_zero.mp h0)
    simp only [hu, if_neg hlen]
    exact hne

/-- Claim C6: whenever `generateRAGResponse` resolves — on the
NO_CONTEXT path or the GENERATE path — the returned source list is
non-empty: the NO_CONTEXT placeholder is a singleton, and the
three-tier fallback always produces at least one source string. -/
theorem C6_sources_never_empty (message domain : String) (embedO : Except String Unit)
    (queryO : Except String (List PineconeMatch)) (completionO : Except String StreamSpec)
    (spec : StreamSpec) (sources : List String)
    (h : (generateRAGResponse message domain embedO queryO completionO).2 =
      .ok (spec, sources)) :
    sources ≠ [] := by
  cases hdom : TECH_DOMAINS domain with
  | none => simp [generateRAGResponse, hdom] at h
  | some cfg =>
    by_cases hact : cfg.isActive = false
    · simp [generateRAGResponse, hdom, hact] at h
    · rcases hs : searchDocuments domain getPineconeConfig.topK embedO queryO with ⟨lg, res⟩
      cases res with
      | error m => simp [generateRAGResponse, hdom, hact, hs] at h
      | ok rs =>
        cases rs with
        | nil =>
          cases completionO with
          | error m => simp [generateRAGResponse, hdom, hact, hs] at h
          | ok s =>
            simp [generateRAGResponse, hdom, hact, hs] at h
            rw [← h.2]
            decide
        | cons r rs2 =>
          cases completionO with
          | error m => simp [generateRAGResponse, hdom, hact, hs] at h
          | ok s =>
            simp [generateRAGResponse, hdom, hact, hs] at h
            rw [← h.2]
            exact buildSources_ne_nil r rs2

/-- Concrete instance of C6 on the NO_CONTEXT path: the resolved source
list is the non-empty generic-help placeholder. -/
theorem C6_sources_never_empty_witness :
    (generateRAGResponse "q" "inngest" (.ok ()) (.ok [])
        (.ok ⟨[], none⟩)).2 = .ok (⟨[], none⟩, ["inngest-general-help"]) ∧
    (["inngest-general-help"] : List String) ≠ [] :=
  ⟨rfl, C6_sources_never_empty "q" "inngest" (.ok ()) (.ok []) (.ok ⟨[], none⟩)
    ⟨[], none⟩ ["inngest-general-help"] rfl⟩

/-- Total chunk count of a batch list. -/
def sumLens (bs : List (List DocumentChunk)) : Nat := (bs.map List.length).sum

/-- A minimal chunk used for concrete store runs. -/
def dummyChunk : DocumentChunk :=
  { content := "c"
    metadata := { source := "s", sect := "", subsection := "", ctype := "documentation",
                  chunkIndex := 0, domain := "inngest" } }

/-- Upsert oracle that resolves for the first `k` batches and rejects
(with message `x`) afterwards. -/
def failAfter (k : Nat) : Nat → Except String Unit :=
  fun i => if i < k then .ok () else .error "x"

/-- Behaviour of the upsert loop when batch `j` is the first to fail:
`j + 1` attempts, the stored total is the size of the first `j`
batches, and the loop rethrows the batch's error unchanged. -/
theorem storeBatchesGo_fail (upsertO : Nat → Except String Unit) :
    ∀ (bs : List (List DocumentChunk)) (k total j : Nat) (m : String),
      j < bs.length → upsertO (k + j) = .error m → (∀ d, d < j → upsertO (k + d) = .ok ()) →
      storeBatchesGo upsertO k total bs = (j + 1, total + sumLens (bs.take j), .error m) := by
  intro bs
  induction bs with
  | nil =>
    intro k total j m hj _ _
    exact absurd hj (by simp)
  | cons b rest ih =>
    intro k total j m hj hfail hok
    cases j with
    | zero =>
      have hk : upsertO k = .error m := by simpa using hfail
      simp [storeBatchesGo, hk, sumLens]
    | succ j2 =>
      have hk : upsertO k = .ok () := by
        have := hok 0 (Nat.succ_pos j2)
        simpa using this
      have hfail2 : upsertO (k + 1 + j2) = .error m := by
        have : k + 1 + j2 = k + (j2 + 1) := by omega
        rw [this]
        exact hfail
      have hok2 : ∀ d, d < j2 → upsertO (k + 1 + d) = .ok () := by
        intro d hd
        have : k + 1 + d = k + (d + 1) := by omega
        rw [this]
        exact hok (d + 1) (by omega)
      have hrec := ih (k + 1) (total + b.length) j2 m (by simpa using hj) hfail2 hok2
      simp only [storeBatchesGo, hk]
      rw [hrec]
      refine Prod.ext rfl (Prod.ext ?_ rfl)
      simp [sumLens, Nat.add_assoc]

/-- Claim C7 (counterexample): two runs with different numbers of
chunks stored before the failing batch (100 versus 200) surface the
very same error value `Failed to store documents: x` — the surfaced
storage error does not carry the count successfully stored so far. -/
theorem C7_counterexample :
    (storeDocuments (List.replicate 150 dummyChunk) "inngest" (failAfter 1)).result =
      .error ("Failed to store documents: x") ∧
    (storeDocuments (List.replicate 250 dummyChunk) "inngest" (failAfter 2)).result =
      .error ("Failed to store documents: x") ∧
    (storeDocuments (List.replicate 150 dummyChunk) "inngest" (failAfter 1)).totalStored = 100 ∧
    (storeDocuments (List.replicate 250 dummyChunk) "inngest" (failAfter 2)).totalStored = 200 ∧
    (100 : Nat) ≠ 200 := by
  refine ⟨rfl, rfl, rfl, rfl, by decide⟩

/-- Claim C7 (amended): when batch `j` is the first whose upsert
rejects, the remaining batches are not attempted (exactly `j + 1`
upserts happen), the chunks of the first `j` batches are the ones
stored, and the surfaced error is `Failed to store documents: `
followed by the underlying message only — without the stored count. -/
theorem C7_partial_failure_aborts (chunks : List DocumentChunk) (domain : String)
    (cfg : ExpertiseDomain) (upsertO : Nat → Except String Unit) (j : Nat) (m : String)
    (hdom : TECH_DOMAINS domain = some cfg)
    (hj : j < (sliceBatches chunks).length)
    (hfail : upsertO j = .error m)
    (hok : ∀ i, i < j → upsertO i = .ok ()) :
    (storeDocuments chunks domain upsertO).upsertCallsAttempted = j + 1 ∧
    (storeDocuments chunks domain upsertO).result =
      .error ("Failed to store documents: " ++ m) ∧
    (storeDocuments chunks domain upsertO).totalStored =
      sumLens ((sliceBatches chunks).take j) := by
  have hgo := storeBatchesGo_fail upsertO (sliceBatches chunks) 0 0 j m hj
    (by simpa using hfail) (by simpa using hok)
  refine ⟨?_, ?_, ?_⟩ <;>
    simp [storeDocuments, hdom, hgo]

/-- Concrete instance of C7 (amended): 150 chunks, second batch fails —
two attempts, 100 chunks stored, wrapped error without the count. -/
theorem C7_partial_failure_aborts_witness :
    (storeDocuments (List.replicate 150 dummyChunk) "inngest"
      (failAfter 1)).upsertCallsAttempted = 2 ∧
    (storeDocuments (List.replicate 150 dummyChunk) "inngest" (failAfter 1)).result =
      .error ("Failed to store documents: " ++ "x") ∧
    (storeDocuments (List.replicate 150 dummyChunk) "inngest" (failAfter 1)).totalStored =
      sumLens ((sliceBatches (List.replicate 150 dummyChunk)).take 1) :=
  C7_partial_failure_aborts (List.replicate 150 dummyChunk) "inngest" inngestDomain
    (failAfter 1) 1 "x" rfl (by decide) rfl
    (fun i hi => by
      have : i = 0 := by omega
      rw [this]
      rfl)

/-- A 1102-character document: one preamble line `x`, then a single
1100-character paragraph. -/
def bigDoc : String := ⟨'x' :: '\n' :: List.replicate 1100 'a'⟩

/-- Claim C8 (counterexample): `parseMarkdownToChunks` on `bigDoc`
produces exactly one chunk, of length 1116 — above the claimed
`maxChunkSize` bound of 1000 (the code's cap is the literal 1200,
checked against the body before the `# Introduction` header is
prepended). -/
theorem C8_counterexample :
    (parseMarkdownToChunks bigDoc "inngest" "documentation").map
      (fun c => c.content.length) = [1116] ∧
    DOC_CONFIG.maxChunkSize < 1116 := by
  refine ⟨rfl, by decide⟩

/-- Claim C8 (amended): every chunk produced by `parseMarkdownToChunks`
has content length at least `minChunkSize` (100 characters); the upper
bound of the original claim does not hold. -/
theorem C8_min_chunk_size (content domain source : String) (c : DocumentChunk)
    (hc : c ∈ parseMarkdownToChunks content domain source) :
    DOC_CONFIG.minChunkSize ≤ c.content.length := by
  rw [parseMarkdownToChunks] at hc
  have h := List.mem_filter.mp hc
  have h2 := h.2
  simp only [decide_eq_true_eq] at h2
  exact h2

/-- The chunk produced from `bigDoc`. -/
def bigChunk : DocumentChunk :=
  (parseMarkdownToChunks bigDoc "inngest" "documentation").headD dummyChunk

/-- Concrete instance of C8 (amended): the `bigDoc` chunk respects the
lower bound. -/
theorem C8_min_chunk_size_witness :
    DOC_CONFIG.minChunkSize ≤ bigChunk.content.length :=
  C8_min_chunk_size bigDoc "inngest" "documentation" bigChunk (by decide)

/-- An empty completion stream used for concrete generation runs. -/
def streamEmpty : StreamSpec := ⟨[], none⟩

/-- Claim C9 (counterexample): two passages with section metadata `b`
then `a` and no extractable URL — the GENERATE path resolves with the
section-fallback source list in encounter order, which is not sorted.
Only the extracted-URL tier is passed through `Array.prototype.sort`. -/
theorem C9_counterexample :
    (generateRAGResponse "q" "inngest" (.ok ())
        (.ok [⟨some ratNineTenths, some "bb", none, some "b"⟩,
              ⟨some ratNineTenths, some "aa", none, some "a"⟩])
        (.ok streamEmpty)).2 =
      .ok (streamEmpty, ["Inngest Documentation: b", "Inngest Documentation: a"]) ∧
    isSorted jsLeS ["Inngest Documentation: b", "Inngest Documentation: a"] = false := by
  refine ⟨rfl, by decide⟩

/-- Claim C9 (amended): on the GENERATE path, when at least one URL is
extracted (tier 1), the resolved source list is the sorted URL list;
the section-metadata and excerpt-placeholder fallback tiers are not
sorted. -/
theorem C9_url_sources_sorted (message domain : String) (cfg : ExpertiseDomain)
    (ms : List PineconeMatch) (spec : StreamSpec)
    (hdom : TECH_DOMAINS domain = some cfg) (hact : cfg.isActive = true)
    (hrs : (ms.filter keptMatch).map toSearchResult ≠ [])
    (hurl : collectUrls ((ms.filter keptMatch).map toSearchResult) ≠ []) :
    (generateRAGResponse message domain (.ok ()) (.ok ms) (.ok spec)).2 =
      .ok (spec, buildSources ((ms.filter keptMatch).map toSearchResult)) ∧
    isSorted jsLeS (buildSources ((ms.filter keptMatch).map toSearchResult)) = true := by
  rcases hrsl : (ms.filter keptMatch).map toSearchResult with _ | ⟨r, rs2⟩
  · exact absurd hrsl hrs
  · constructor
    · have hsearch : searchDocuments domain getPineconeConfig.topK (.ok ()) (.ok ms) =
          (⟨1, 1, 0⟩, .ok (r :: rs2)) := by
        simp [searchDocuments, hdom, hact, hrsl]
      simp [generateRAGResponse, hdom, hact, hsearch]
    · rw [hrsl] at hurl
      unfold buildSources
      rcases hcu : collectUrls (r :: rs2) with _ | ⟨u, us⟩
      · exact absurd hcu hurl
      · have hne := sortBy_ne_nil jsLeS u us
        have hlen : (sortBy jsLeS (u :: us)).length ≠ 0 := fun h0 =>
          hne (List.length_eq_zero.mp h0)
        simp only [hcu, if_neg hlen]
        exact isSorted_sortBy jsLeS jsLeS_total (u :: us)

/-- Concrete instance of C9 (amended): one passage whose content holds
a documentation URL — tier 1 applies and the resolved list is sorted. -/
theorem C9_url_sources_sorted_witness :
    (generateRAGResponse "q" "inngest" (.ok ())
        (.ok [⟨some ratNineTenths, some "See https://www.inngest.com/docs/functions/steps now",
              none, none⟩])
        (.ok streamEmpty)).2 =
      .ok (streamEmpty,
        buildSources (([(⟨some ratNineTenths,
            some "See https://www.inngest.com/docs/functions/steps now", none,
            none⟩ : PineconeMatch)].filter keptMatch).map toSearchResult)) ∧
    isSorted jsLeS
      (buildSources (([(⟨some ratNineTenths,
          some "See https://www.inngest.com/docs/functions/steps now", none,
          none⟩ : PineconeMatch)].filter keptMatch).map toSearchResult)) = true :=
  C9_url_sources_sorted "q" "inngest" inngestDomain
    [⟨some ratNineTenths, some "See https://www.inngest.com/docs/functions/steps now", none, none⟩]
    streamEmpty rfl rfl (by decide) (by decide)
